import Mathlib

/-!
Shallow embedding, in Lean 4, of the spatial-planning and movement-routing
core of the colony-management agent:

* `src/planner.road.usage.js`  — heatmap tracking (`trackStep`) and the
  periodic dynamic road planner (`RoadUsagePlanner.run`);
* `src/planner.road.layout.js` — the static infrastructure layout planner
  (`RoadLayoutPlanner.planLayout` and its helpers);
* `src/unnamed/part_002` (planner.defense.js) — the perimeter defense
  planner (`DefensePlanner._planRampartBorders`);
* `src/util.pathing.js`        — agent movement with path caching
  (`Pathing.moveTo`, `_useCachedPath`, `_setCachedPath`, `_checkStuck`).

Conventions of the embedding:

* a world cell is a pair of integers (JS numbers used as grid coordinates);
* JS objects used as string-keyed maps (`Memory.roadUsage[room]`) become
  association lists in insertion order, which is exactly the enumeration
  order of `Object.entries` for keys of the form `"x:y"` (non-index keys);
  the key string `` `${x}:${y}` `` is injective in `(x, y)`, so keys are
  modelled directly as cells;
* world queries (`room.lookForAt`, terrain, `room.find`) become function-
  or list-valued fields of a context structure, fixed for the duration of
  one call, exactly as the world is fixed during one tick;
* `room.createConstructionSite` is an external mutation whose result the
  code consumes; it is modelled by a `siteOk` oracle where the code checks
  the result, and requests are collected into an output list;
* `PathFinder.search` and `creep.moveByPath` are engine calls, modelled as
  oracle function parameters.
-/

namespace Colony

/-- A grid cell: integer coordinates, as in the JS source. -/
abbrev Cell := Int × Int

namespace Config

/-- `Config.ROADS.MIN_USAGE_FOR_ROAD` from `src/config.js`. -/
def ROADS_MIN_USAGE_FOR_ROAD : Int := 20

/-- `Config.ROADS.DECAY_PER_RUN` from `src/config.js`. -/
def ROADS_DECAY_PER_RUN : Int := 1

/-- `Config.ROADS.MAX_TILES_PER_ROOM` from `src/config.js`. -/
def ROADS_MAX_TILES_PER_ROOM : Nat := 500

/-- `Config.ROADS.MAX_CONSTRUCTION_SITES_PER_RUN` from `src/config.js`. -/
def ROADS_MAX_SITES_PER_RUN : Nat := 3

/-- `Config.ROADS.TICK_INTERVAL` from `src/config.js`. -/
def ROADS_TICK_INTERVAL : Nat := 5

/-- `Config.PATHING.STUCK_TICKS` from `src/config.js`. -/
def PATHING_STUCK_TICKS : Nat := 3

/-- `Config.PATHING.MAX_OPS` from `src/config.js`. -/
def PATHING_MAX_OPS : Nat := 2000

/-- `Config.POPULATION.maxCreepsForRCL` from `src/config.js`. -/
def maxCreepsForRCL (rcl : Nat) : Int :=
  if rcl ≤ 1 then 8
  else if rcl = 2 then 12
  else if rcl = 3 then 16
  else if rcl = 4 then 20
  else if rcl = 5 then 24
  else if rcl = 6 then 28
  else if rcl = 7 then 32
  else 36

/-- `Config.DEFENSE.MAX_RAMPART_SITES_PER_RUN` from `src/config.js`
(bound to `MAX_BORDER_SITES_PER_TICK` in planner.defense.js). -/
def DEFENSE_MAX_RAMPART_SITES_PER_RUN : Nat := 8

end Config

/-! ### Association-list model of a JS object used as a map

`usage[key]` read, `usage[key] = v` write (update in place, or append for a
fresh key — JS objects preserve insertion order for such keys), and
`delete usage[key]`. -/

/-- The per-room usage heatmap `Memory.roadUsage[roomName]`: cell ↦ counter. -/
abbrev UsageMap := List (Cell × Int)

/-- Read `usage[key]` (`undefined` ↦ `none`). -/
def lookupCell : UsageMap → Cell → Option Int
  | [], _ => none
  | e :: rest, k => if e.1 = k then some e.2 else lookupCell rest k

/-- Write `usage[key] = v`: update the existing entry in place, else append. -/
def setCell : UsageMap → Cell → Int → UsageMap
  | [], k, v => [(k, v)]
  | e :: rest, k, v => if e.1 = k then (k, v) :: rest else e :: setCell rest k v

/-- `delete usage[key]`. -/
def delCell (u : UsageMap) (k : Cell) : UsageMap :=
  u.filter (fun e => decide (e.1 ≠ k))

/-! ### `RoadUsagePlanner.trackStep` (src/planner.road.usage.js lines 35-60) -/

/-- The creep's `memory._lastPos` record. -/
structure LastPos where
  x : Int
  y : Int
  roomName : String
deriving DecidableEq

/-- `RoadUsagePlanner.trackStep`: increment the heatmap counter of the
creep's current cell only when it differs from `memory._lastPos`, then
store the current position as `_lastPos`.  Returns the updated usage map
and the new `_lastPos`. -/
def trackStep (pos : Cell) (roomName : String) (last : Option LastPos)
    (u : UsageMap) : UsageMap × LastPos :=
  let moved : Bool :=
    match last with
    | none => true
    | some l => decide (l.x ≠ pos.1) || decide (l.y ≠ pos.2) || decide (l.roomName ≠ roomName)
  let u' := if moved then setCell u pos ((lookupCell u pos).getD 0 + 1) else u
  (u', ⟨pos.1, pos.2, roomName⟩)

/-! ### `RoadUsagePlanner.run` (src/planner.road.usage.js lines 70-146) -/

/-- The world-observation context of one periodic run: everything `run`
reads from the room, fixed for the tick. -/
structure RoomCtx where
  ctrlMine : Bool
  rcl : Nat
  ctrlPos : Cell
  spawnPositions : List Cell
  wallAt : Cell → Bool
  roadAt : Cell → Bool
  roadSiteAt : Cell → Bool
  siteOk : Cell → Bool

/-- The population-scaled threshold `dynamicMinUsage` of `run`:
`MIN_USAGE_FOR_ROAD + Math.max(0, maxCreeps - 10) * 5`. -/
def dynamicMinUsage (rcl : Nat) : Int :=
  Config.ROADS_MIN_USAGE_FOR_ROAD + max 0 (Config.maxCreepsForRCL rcl - 10) * 5

/-- Comparator of the eviction sort: `(a, b) => a[1] - b[1]`, least-used first. -/
def usageLE (a b : Cell × Int) : Prop := a.2 ≤ b.2

instance : DecidableRel usageLE := fun a b => inferInstanceAs (Decidable (a.2 ≤ b.2))

/-- The `for (const [key, count] of entries)` loop of `run`: per entry,
break at the per-run cap, decay, threshold check, legality checks
(wall / controller tile / spawn tiles / existing road / pending road site),
then `createConstructionSite`; on `OK` count the request and reset the
counter to zero.  Returns the updated usage object and the cells for which
a road request was accepted. -/
def runLoop (ctx : RoomCtx) (thr : Int) :
    List (Cell × Int) → UsageMap → Nat → List Cell → UsageMap × List Cell
  | [], u, _, em => (u, em)
  | (k, c) :: rest, u, created, em =>
    if created ≥ Config.ROADS_MAX_SITES_PER_RUN then (u, em)
    else
      let decayed := max 0 (c - Config.ROADS_DECAY_PER_RUN)
      let u1 := setCell u k decayed
      if decayed < thr then runLoop ctx thr rest u1 created em
      else if ctx.wallAt k then runLoop ctx thr rest (delCell u1 k) created em
      else if k = ctx.ctrlPos then runLoop ctx thr rest u1 created em
      else if ctx.spawnPositions.any (fun s => decide (s = k)) then runLoop ctx thr rest u1 created em
      else if ctx.roadAt k then runLoop ctx thr rest (delCell u1 k) created em
      else if ctx.roadSiteAt k then runLoop ctx thr rest u1 created em
      else if ctx.siteOk k then runLoop ctx thr rest (setCell u1 k 0) (created + 1) (em ++ [k])
      else runLoop ctx thr rest u1 created em

/-- Result of one periodic run: the persisted usage map afterwards and the
road construction requests accepted during the run. -/
structure RunOut where
  usage : UsageMap
  emitted : List Cell

/-- The hard-cap eviction step of `run`: when more than
`MAX_TILES_PER_ROOM` cells are tracked, sort the snapshot by usage
ascending, delete the lowest-usage keys from the map until back at the cap,
and continue with the remaining (sorted) snapshot. -/
def evictOverCap (u : UsageMap) : UsageMap × List (Cell × Int) :=
  if u.length > Config.ROADS_MAX_TILES_PER_ROOM then
    (u.filter (fun e => decide (e.1 ∉
        ((u.insertionSort usageLE).take
          (u.length - Config.ROADS_MAX_TILES_PER_ROOM)).map Prod.fst)),
      (u.insertionSort usageLE).drop (u.length - Config.ROADS_MAX_TILES_PER_ROOM))
  else (u, u)

/-- `RoadUsagePlanner.run`: gated on room ownership and the tick interval;
evict over-cap entries; then run the decay / threshold / legality loop. -/
def runUsage (ctx : RoomCtx) (time : Nat) (u : UsageMap) : RunOut :=
  if ctx.ctrlMine = false then ⟨u, []⟩
  else if time % Config.ROADS_TICK_INTERVAL ≠ 0 then ⟨u, []⟩
  else
    ⟨(runLoop ctx (dynamicMinUsage ctx.rcl) (evictOverCap u).2 (evictOverCap u).1 0 []).1,
      (runLoop ctx (dynamicMinUsage ctx.rcl) (evictOverCap u).2 (evictOverCap u).1 0 []).2⟩

/-- Qualification predicate of one tracked entry `(cell, counter)` during a
run: its decayed counter reaches the population-scaled threshold and the
cell passes every legality check of the loop. -/
def roadQualifies (ctx : RoomCtx) (thr : Int) (e : Cell × Int) : Bool :=
  !decide (max 0 (e.2 - Config.ROADS_DECAY_PER_RUN) < thr)
  && !ctx.wallAt e.1
  && decide (e.1 ≠ ctx.ctrlPos)
  && !(ctx.spawnPositions.any (fun s => decide (s = e.1)))
  && !ctx.roadAt e.1
  && !ctx.roadSiteAt e.1

/-! ### `RoadLayoutPlanner` (src/planner.road.layout.js) -/

/-- Structure kinds the planners distinguish; every kind the source never
names individually is `other`. -/
inductive SKind where
  | road
  | container
  | rampart
  | other
deriving DecidableEq

/-- The persisted `Memory.roadLayout[room.name]` record:
`{ plannedVersion, lastRCL }`. -/
structure LayoutRec where
  plannedVersion : Nat
  lastRCL : Nat
deriving DecidableEq

/-- `LAYOUT_VERSION` constant of `planLayout`. -/
def LAYOUT_VERSION : Nat := 2

/-- World-observation context of one `planLayout` call. -/
structure LayoutCtx where
  ctrlMine : Bool
  rcl : Nat
  ctrlPos : Cell
  spawnPositions : List Cell
  sources : List Cell
  storage : Option Cell
  storageLayoutMem : Option Cell
  mineral : Option Cell
  wallAt : Cell → Bool
  structKindsAt : Cell → List SKind
  roadSiteAt : Cell → Bool
  pathBetween : Cell → Cell → List Cell

/-- `RoadLayoutPlanner._tryPlaceRoad`: emit a road request at `c` unless
out of bounds, a terrain wall, occupied by a structure other than a road or
container, or already pending a road site. -/
def tryPlaceRoad (ctx : LayoutCtx) (c : Cell) : List Cell :=
  if c.1 < 0 ∨ c.1 > 49 ∨ c.2 < 0 ∨ c.2 > 49 then []
  else if ctx.wallAt c then []
  else if (ctx.structKindsAt c).any
      (fun k => decide (k ≠ SKind.road) && decide (k ≠ SKind.container)) then []
  else if ctx.roadSiteAt c then []
  else [c]

/-- Offsets of the radius-1 plaza ring (3×3 minus the center), in the
`dx`-outer `dy`-inner enumeration order of the source. -/
def ring1Offsets : List (Int × Int) :=
  (List.range 3).flatMap (fun i =>
    (List.range 3).filterMap (fun j =>
      let dx : Int := (i : Int) - 1
      let dy : Int := (j : Int) - 1
      if dx = 0 ∧ dy = 0 then none else some (dx, dy)))

/-- Offsets of the radius-2 plaza ring (cells with `|dx| = 2` or `|dy| = 2`). -/
def ring2Offsets : List (Int × Int) :=
  (List.range 5).flatMap (fun i =>
    (List.range 5).filterMap (fun j =>
      let dx : Int := (i : Int) - 2
      let dy : Int := (j : Int) - 2
      if dx.natAbs ≠ 2 ∧ dy.natAbs ≠ 2 then none else some (dx, dy)))

/-- `RoadLayoutPlanner._planSpawnPlaza`: road requests on both plaza rings
around the spawn. -/
def planSpawnPlaza (ctx : LayoutCtx) (sp : Cell) : List Cell :=
  (ring1Offsets ++ ring2Offsets).flatMap
    (fun d => tryPlaceRoad ctx (sp.1 + d.1, sp.2 + d.2))

/-- `RoadLayoutPlanner._planRoadBetween`: solve a layout-profile path via
the `pathBetween` oracle and request a road on every step that is not a
wall, not the controller tile, not a spawn tile, and has no existing road
structure and no pending road site. -/
def planRoadBetween (ctx : LayoutCtx) (fromP toP : Cell) : List Cell :=
  let path := ctx.pathBetween fromP toP
  if path = [] then []
  else
    path.flatMap (fun c =>
      if ctx.wallAt c then []
      else if c = ctx.ctrlPos then []
      else if ctx.spawnPositions.any (fun s => decide (s = c)) then []
      else if (ctx.structKindsAt c).any (fun k => decide (k = SKind.road)) then []
      else if ctx.roadSiteAt c then []
      else [c])

/-- Result of one `planLayout` call: the persisted layout record afterwards
(`none` when the room is not owned and no record existed) and the road
requests submitted. -/
structure LayoutOut where
  record : Option LayoutRec
  requests : List Cell
deriving DecidableEq

/-- The storage-centric road requests of `planLayout` step 5. -/
def planStorageRoads (ctx : LayoutCtx) (sp : Cell) : List Cell :=
  let storagePos : Option Cell :=
    match ctx.storage with
    | some s => some s
    | none => ctx.storageLayoutMem
  match storagePos with
  | none => []
  | some st =>
    planRoadBetween ctx sp st
    ++ planRoadBetween ctx st ctx.ctrlPos
    ++ ctx.sources.flatMap (fun src => planRoadBetween ctx st src)
    ++ (match ctx.mineral with
        | none => []
        | some m => planRoadBetween ctx st m)

/-- `RoadLayoutPlanner.planLayout`: skip unless the room is owned;
initialize the layout record if absent; skip when the persisted record
already covers the current RCL at the current algorithm version; skip when
no spawn exists; otherwise emit the plaza and trunk-road requests and
persist `{ plannedVersion := LAYOUT_VERSION, lastRCL := current RCL }`. -/
def planLayout (mem : Option LayoutRec) (ctx : LayoutCtx) : LayoutOut :=
  if ctx.ctrlMine = false then ⟨mem, []⟩
  else
    let layout := mem.getD ⟨0, 0⟩
    if layout.lastRCL = ctx.rcl ∧ layout.plannedVersion ≥ LAYOUT_VERSION then
      ⟨some layout, []⟩
    else
      match ctx.spawnPositions.head? with
      | none => ⟨some layout, []⟩
      | some sp =>
        let reqs :=
          planSpawnPlaza ctx sp
          ++ planRoadBetween ctx sp ctx.ctrlPos
          ++ ctx.sources.flatMap (fun src => planRoadBetween ctx sp src)
          ++ ctx.sources.flatMap (fun src => planRoadBetween ctx src ctx.ctrlPos)
          ++ planStorageRoads ctx sp
        ⟨some ⟨LAYOUT_VERSION, ctx.rcl⟩, reqs⟩

/-- The replanning trigger of `planLayout`: the persisted record does NOT
yet cover the current RCL at the current algorithm version. -/
def layoutTrigger (rec : LayoutRec) (rcl : Nat) : Prop :=
  ¬ (rec.lastRCL = rcl ∧ rec.plannedVersion ≥ LAYOUT_VERSION)

/-! ### `DefensePlanner._planRampartBorders` (src/unnamed/part_002 lines 51-141) -/

/-- World-observation context of one `_planRampartBorders` call. -/
structure DefenseCtx where
  wallAt : Cell → Bool
  rampartAt : Cell → Bool
  rampartSiteAt : Cell → Bool
  siteOk : Cell → Bool

/-- Mutable state of the border scan: requests accepted this run, remaining
quota, the `used` dedup set, and the accepted request cells in order. -/
structure BorderState where
  created : Nat
  remaining : Int
  used : List Cell
  emitted : List Cell

/-- The `tryPlace` closure of `_planRampartBorders`: stop at the per-run
cap or an exhausted quota; skip out-of-bounds, wall, already-attempted
(`used`), existing-rampart and pending-rampart cells; submit the request
and, when the world accepts it, count it against cap and quota. -/
def tryPlaceRampart (ctx : DefenseCtx) (st : BorderState) (c : Cell) : BorderState :=
  if st.created ≥ Config.DEFENSE_MAX_RAMPART_SITES_PER_RUN ∨ st.remaining ≤ 0 then st
  else if c.1 < 0 ∨ c.1 > 49 ∨ c.2 < 0 ∨ c.2 > 49 then st
  else if ctx.wallAt c then st
  else if c ∈ st.used then st
  else
    let st1 : BorderState := { st with used := c :: st.used }
    if ctx.rampartAt c then st1
    else if ctx.rampartSiteAt c then st1
    else if ctx.siteOk c then
      { st1 with
        created := st1.created + 1
        remaining := st1.remaining - 1
        emitted := st1.emitted ++ [c] }
    else st1

/-- The boundary-inward candidate cells, in scan order: for each passable
cell of the top edge `y = 0` the cell `(x, 1)`, of the bottom edge `y = 49`
the cell `(x, 48)`, then for each passable cell of the left edge `x = 0`
the cell `(1, y)` and of the right edge `x = 49` the cell `(48, y)` for
`y = 1 .. 48`.  The loop-header guards `created < cap && remaining > 0`
only stop iteration early; since `tryPlace` re-checks the same condition
first, folding over the full candidate list is observationally equal. -/
def borderCandidates (wallAt : Cell → Bool) : List Cell :=
  ((List.range 50).flatMap (fun xi =>
    let x : Int := (xi : Int)
    (if wallAt (x, 0) then [] else [(x, (1 : Int))])
    ++ (if wallAt (x, 49) then [] else [(x, (48 : Int))])))
  ++ ((List.range' 1 48).flatMap (fun yi =>
    let y : Int := (yi : Int)
    (if wallAt (0, y) then [] else [((1 : Int), y)])
    ++ (if wallAt (49, y) then [] else [((48 : Int), y)])))

/-- `DefensePlanner._planRampartBorders`: compute the remaining quota
`allowed − existing − pending`; if none remains, do nothing; otherwise scan
the four boundary edges and try each inward candidate. -/
def planRampartBorders (ctx : DefenseCtx) (allowed : Int)
    (existing pending : Nat) : BorderState :=
  if allowed ≤ 0 then ⟨0, allowed - (existing : Int) - (pending : Int), [], []⟩
  else if allowed - (existing : Int) - (pending : Int) ≤ 0 then
    ⟨0, allowed - (existing : Int) - (pending : Int), [], []⟩
  else
    (borderCandidates ctx.wallAt).foldl (tryPlaceRampart ctx)
      ⟨0, allowed - (existing : Int) - (pending : Int), [], []⟩

/-! ### `Pathing` (src/util.pathing.js) -/

/-- A room position: coordinates plus the room name. -/
structure Pos where
  x : Int
  y : Int
  roomName : String
deriving DecidableEq

/-- Screeps return code `OK`. -/
def RET_OK : Int := 0

/-- Screeps return code `ERR_NO_PATH`. -/
def RET_ERR_NO_PATH : Int := -2

/-- Screeps return code `ERR_TIRED`. -/
def RET_ERR_TIRED : Int := -11

/-- The pathing-related slice of a creep's memory:
`_path`, `_pathTarget`, `_pathSetTick`, `_lastMovePos`, `_stuckTicks`. -/
structure CreepMem where
  path : Option (List Pos)
  pathTarget : Option Pos
  pathSetTick : Option Int
  lastMovePos : Option Pos
  stuckTicks : Option Nat
deriving DecidableEq

/-- `delete _path; delete _pathTarget; delete _pathSetTick`. -/
def clearPathCache (mem : CreepMem) : CreepMem :=
  { mem with path := none, pathTarget := none, pathSetTick := none }

/-- Outcome of `Pathing._checkStuck`: updated memory, whether a random
nudge move was issued, and — when it was — the chosen direction index. -/
structure StuckOut where
  mem : CreepMem
  nudged : Bool
  nudgeDir : Option Nat

/-- `Pathing._checkStuck`: reset the stall counter when the creep moved;
otherwise bump it, and at `STUCK_TICKS` clear the path cache, issue one
random single-step move (direction index drawn from the `rand` oracle) and
reset the counter. -/
def checkStuck (mem : CreepMem) (pos : Pos) (rand : Nat) : StuckOut :=
  let movedBranch : StuckOut :=
    ⟨{ mem with lastMovePos := some pos, stuckTicks := some 0 }, false, none⟩
  match mem.lastMovePos with
  | none => movedBranch
  | some last =>
    if last.x ≠ pos.x ∨ last.y ≠ pos.y ∨ last.roomName ≠ pos.roomName then movedBranch
    else
      let st := mem.stuckTicks.getD 0 + 1
      if st ≥ Config.PATHING_STUCK_TICKS then
        ⟨{ clearPathCache mem with stuckTicks := some 0, lastMovePos := mem.lastMovePos },
          true, some (rand % 8)⟩
      else ⟨{ mem with stuckTicks := some st }, false, none⟩

/-- Outcome of `Pathing._useCachedPath`: whether the cached route was
followed, and the (possibly cleared) memory. -/
structure CacheTry where
  used : Bool
  mem : CreepMem

/-- The tail of `_useCachedPath` after the match and age checks: follow the
cached route; treat `OK` and `ERR_TIRED` as success, clear the cache on any
other result. -/
def followCached (mem : CreepMem) (cached : List Pos)
    (moveByPath : List Pos → Int) : CacheTry :=
  let r := moveByPath cached
  if r = RET_OK ∨ r = RET_ERR_TIRED then ⟨true, mem⟩
  else ⟨false, clearPathCache mem⟩

/-- `Pathing._useCachedPath`: the cached route is considered only when a
path and a target are stored and the stored target's room name and
coordinates equal the requested target's; a stored compute tick older than
`reusePath` ticks clears the cache; otherwise the route is followed via
`followCached`.  No acceptance radius is stored or compared. -/
def useCachedPath (mem : CreepMem) (targetPos : Pos) (reusePath : Int)
    (time : Int) (moveByPath : List Pos → Int) : CacheTry :=
  match mem.path, mem.pathTarget with
  | some cached, some ct =>
    if ct.roomName ≠ targetPos.roomName ∨ ct.x ≠ targetPos.x ∨ ct.y ≠ targetPos.y then
      ⟨false, mem⟩
    else
      match mem.pathSetTick with
      | some st =>
        if time - st > reusePath then ⟨false, clearPathCache mem⟩
        else followCached mem cached moveByPath
      | none => followCached mem cached moveByPath
  | _, _ => ⟨false, mem⟩

/-- `Pathing._setCachedPath`: store the route, the target's coordinates and
room name, and the current tick. -/
def setCachedPath (mem : CreepMem) (targetPos : Pos) (path : List Pos)
    (time : Int) : CreepMem :=
  { mem with
    path := some path
    pathTarget := some targetPos
    pathSetTick := some time }

/-- A structure of the room as seen by the movement cost callback. -/
structure RoomStruct where
  x : Int
  y : Int
  kind : SKind
  my : Bool

/-- A creep of the room as seen by the movement cost callback. -/
structure RoomCreep where
  x : Int
  y : Int
  owner : Option String
  name : String

/-- `PathFinder.CostMatrix.set`. -/
def setCost (m : Cell → Nat) (x y : Int) (v : Nat) : Cell → Nat :=
  fun c => if c = (x, y) then v else m c

/-- The structure pass of the `roomCallback` of `moveTo`: roads cost 1;
anything that is neither a road, a container, nor an owned rampart blocks
the tile at 255. -/
def applyStructCosts : List RoomStruct → (Cell → Nat) → (Cell → Nat)
  | [], m => m
  | s :: rest, m =>
    let m1 :=
      if s.kind = SKind.road then setCost m s.x s.y 1
      else if s.kind ≠ SKind.container ∧ (s.kind ≠ SKind.rampart ∨ s.my = false) then
        setCost m s.x s.y 255
      else m
    applyStructCosts rest m1

/-- The skip test of the creep pass: the entry is the requesting creep
itself (same owner username and same name). -/
def isRequester (meName : String) (meOwner : Option String) (c : RoomCreep) : Bool :=
  match c.owner, meOwner with
  | some a, some b => decide (a = b) && decide (c.name = meName)
  | _, _ => false

/-- The creep pass of the `roomCallback` of `moveTo`: block every creep's
current tile at 255, skipping only the requesting creep's own entry. -/
def applyCreepCosts (meName : String) (meOwner : Option String) :
    List RoomCreep → (Cell → Nat) → (Cell → Nat)
  | [], m => m
  | c :: rest, m =>
    let m1 := if isRequester meName meOwner c then m else setCost m c.x c.y 255
    applyCreepCosts meName meOwner rest m1

/-- The complete cost matrix built by the `roomCallback` of `moveTo`:
structures first, then creeps (later writes override), over a default-0
matrix. -/
def buildMoveCosts (structures : List RoomStruct) (creeps : List RoomCreep)
    (meName : String) (meOwner : Option String) : Cell → Nat :=
  applyCreepCosts meName meOwner creeps
    (applyStructCosts structures (fun _ => 0))

/-- The `PathFinder.search` invocation of `moveTo`: origin, goal with
range, the literal `plainCost: 2` / `swampCost: 10`, the op budget, and the
cost matrix of the room callback. -/
structure SearchQuery where
  origin : Pos
  goal : Pos
  range : Nat
  plainCost : Nat
  swampCost : Nat
  maxOps : Nat
  costs : Cell → Nat

/-- Build the exact search query `moveTo` submits to `PathFinder.search`. -/
def moveQuery (origin target : Pos) (range maxOps : Nat)
    (structures : List RoomStruct) (creeps : List RoomCreep)
    (meName : String) (meOwner : Option String) : SearchQuery :=
  { origin := origin
    goal := target
    range := range
    plainCost := 2
    swampCost := 10
    maxOps := maxOps
    costs := buildMoveCosts structures creeps meName meOwner }

/-- The requesting creep as `moveTo` sees it. -/
structure Creep where
  pos : Pos
  name : String
  owner : Option String

/-- Outcome of one `Pathing.moveTo` call: the return code, the creep's
updated memory, whether a fresh route was computed (`PathFinder.search`
invoked) this call, and whether the stall nudge fired. -/
structure MoveOutcome where
  ret : Int
  mem : CreepMem
  computedNew : Bool
  nudged : Bool

/-- `Pathing.moveTo`: run stuck detection, try the cached route, and
otherwise compute a fresh route via `PathFinder.search` (the `search`
oracle), caching and following it on success, clearing the cache and
returning `ERR_NO_PATH` when the solver finds nothing. -/
def moveTo (creep : Creep) (target : Pos) (range maxOps : Nat)
    (reusePath : Int) (time : Int)
    (structures : List RoomStruct) (creeps : List RoomCreep)
    (search : SearchQuery → List Pos) (moveByPath : List Pos → Int)
    (rand : Nat) (mem : CreepMem) : MoveOutcome :=
  let stuck := checkStuck mem creep.pos rand
  let tryC := useCachedPath stuck.mem target reusePath time moveByPath
  if tryC.used then ⟨RET_OK, tryC.mem, false, stuck.nudged⟩
  else
    let q := moveQuery creep.pos target range maxOps structures creeps creep.name creep.owner
    let p := search q
    if p = [] then ⟨RET_ERR_NO_PATH, clearPathCache tryC.mem, true, stuck.nudged⟩
    else ⟨RET_OK, setCachedPath tryC.mem target p time, true, stuck.nudged⟩

/-! ### Spec-side predicates and claim formalizations

The following definitions follow the SPEC'S / CLAIMS' wording (not the
source); each is compared against the source-derived definitions above. -/

/-- Some creep other than the requester currently stands on `c`. -/
def otherCreepAt (creeps : List RoomCreep) (meName : String)
    (meOwner : Option String) (c : Cell) : Bool :=
  creeps.any (fun cr =>
    !isRequester meName meOwner cr && decide (((cr.x, cr.y) : Cell) = c))

/-- A road structure stands on `c`. -/
def roadStructAt (structures : List RoomStruct) (c : Cell) : Bool :=
  structures.any (fun s =>
    decide (((s.x, s.y) : Cell) = c) && decide (s.kind = SKind.road))

/-- A blocking structure (neither road, container, nor owned rampart)
stands on `c`. -/
def blockingStructAt (structures : List RoomStruct) (c : Cell) : Bool :=
  structures.any (fun s =>
    decide (((s.x, s.y) : Cell) = c)
    && (decide (s.kind ≠ SKind.container)
        && (decide (s.kind ≠ SKind.rampart) || decide (s.my = false))))

/-- Movement cost profile as the CLAIM C4 words it: other agents' current
cells cost 255 "while exempting exactly the requesting agent's
immediately-previous cell from that blocking" (`prev`), roads cost 1,
blocking structures 255, and 0 means terrain cost (2 open / 10 slow via
the search parameters). -/
def specMoveCost (structures : List RoomStruct) (creeps : List RoomCreep)
    (meName : String) (meOwner : Option String) (prev : Cell) (c : Cell) : Nat :=
  if otherCreepAt creeps meName meOwner c && decide (c ≠ prev) then 255
  else if roadStructAt structures c then 1
  else if blockingStructAt structures c then 255
  else 0

/-- Claim C1 as stated: across two consecutive `moveTo` calls for the same
agent, the cached route is reused (no recomputation) if and only if the
destination cell AND the acceptance radius match the previous request
exactly and the cache age is at most the reuse window. -/
def claimC1 : Prop :=
  ∀ (creep : Creep) (t1 t2 : Pos) (r1 r2 maxOps : Nat)
    (reuse time1 time2 : Int)
    (structures : List RoomStruct) (creeps : List RoomCreep)
    (search : SearchQuery → List Pos) (mv : List Pos → Int)
    (rand : Nat) (mem : CreepMem),
    ((moveTo creep t2 r2 maxOps reuse time2 structures creeps search mv rand
        (moveTo creep t1 r1 maxOps reuse time1 structures creeps search mv rand
          mem).mem).computedNew = false
      ↔ t2 = t1 ∧ r2 = r1 ∧ time2 - time1 ≤ reuse)

/-- Claim C2 as stated: during a periodic run (room owned, interval tick,
tracked cells within the hard cap, every request accepted by the world), a
road request is emitted for a tracked cell if and only if its decayed
counter reaches the population-scaled threshold and the cell passes every
legality check — with no proviso about the per-run emission cap. -/
def claimC2 : Prop :=
  ∀ (ctx : RoomCtx) (time : Nat) (u : UsageMap),
    ctx.ctrlMine = true →
    time % Config.ROADS_TICK_INTERVAL = 0 →
    u.length ≤ Config.ROADS_MAX_TILES_PER_ROOM →
    (∀ k, ctx.siteOk k = true) →
    ∀ e ∈ u,
      ((e.1 ∈ (runUsage ctx time u).emitted) ↔
        roadQualifies ctx (dynamicMinUsage ctx.rcl) e = true)

/-- Claim C4 as stated: the movement search uses open=2 / slow=10, and its
cost matrix equals the spec-worded profile `specMoveCost` — roads 1,
blocking structures 255, other agents' current cells 255 with exactly the
requester's immediately-previous cell `prev` exempted from that blocking. -/
def claimC4 : Prop :=
  ∀ (origin target : Pos) (range maxOps : Nat)
    (structures : List RoomStruct) (creeps : List RoomCreep)
    (meName : String) (meOwner : Option String) (prev : Cell),
    (structures.map (fun s => ((s.x, s.y) : Cell))).Nodup →
    ((moveQuery origin target range maxOps structures creeps meName meOwner).plainCost = 2
      ∧ (moveQuery origin target range maxOps structures creeps meName meOwner).swampCost = 10
      ∧ ∀ c, (moveQuery origin target range maxOps structures creeps meName meOwner).costs c
          = specMoveCost structures creeps meName meOwner prev c)

/-- Claim C5 as stated: one `planLayout` call never decreases the persisted
algorithm version or the persisted development level. -/
def claimC5 : Prop :=
  ∀ (rec : LayoutRec) (ctx : LayoutCtx) (rec2 : LayoutRec),
    (planLayout (some rec) ctx).record = some rec2 →
    rec.plannedVersion ≤ rec2.plannedVersion ∧ rec.lastRCL ≤ rec2.lastRCL

/-- Claim C6 as stated: when the heatmap holds exactly the hard cap of
entries, a visitation event for an untracked cell evicts before inserting,
so the entry count stays at most the cap between periodic runs. -/
def claimC6 : Prop :=
  ∀ (pos : Cell) (roomName : String) (last : Option LastPos) (u : UsageMap),
    u.length = Config.ROADS_MAX_TILES_PER_ROOM →
    lookupCell u pos = none →
    ((trackStep pos roomName last u).1).length ≤ Config.ROADS_MAX_TILES_PER_ROOM

/-! ### Concrete scenarios used by the counterexamples and witnesses -/

/-- A small owned room at RCL 1 (population-scaled threshold 20): no walls,
controller at (40,40), one spawn at (25,25), no roads or pending sites,
every construction request accepted. -/
def scenCtx : RoomCtx :=
  { ctrlMine := true
    rcl := 1
    ctrlPos := (40, 40)
    spawnPositions := [(25, 25)]
    wallAt := fun _ => false
    roadAt := fun _ => false
    roadSiteAt := fun _ => false
    siteOk := fun _ => true }

/-- The observed cell of Scenario B (claim C7). -/
def scenCell : Cell := (10, 10)

/-- One visitation of `scenCell`: a creep arriving from (9,10), so
`trackStep` counts it. -/
def scenVisit (u : UsageMap) : UsageMap :=
  (trackStep scenCell "W1" (some ⟨9, 10, "W1"⟩) u).1

/-- Usage gain of 5 between consecutive runs: five counted arrivals. -/
def scenGain (u : UsageMap) : UsageMap :=
  scenVisit (scenVisit (scenVisit (scenVisit (scenVisit u))))

/-- Heatmap state after `n` full cycles of (gain 5, then periodic run). -/
def scenAfterRun : Nat → UsageMap
  | 0 => []
  | n + 1 => (runUsage scenCtx 0 (scenGain (scenAfterRun n))).usage

/-- The road requests emitted by run number `n` (runs are 1-indexed). -/
def scenEmittedAtRun (n : Nat) : List Cell :=
  (runUsage scenCtx 0 (scenGain (scenAfterRun (n - 1)))).emitted

/-- The decayed value of `scenCell` as run number `n` computes it. -/
def scenDecayedAtRun (n : Nat) : Int :=
  max 0 ((lookupCell (scenGain (scenAfterRun (n - 1))) scenCell).getD 0
    - Config.ROADS_DECAY_PER_RUN)

/-- Claim C7 as stated (Scenario B): at run 6 the decayed value is
6×5 − 5×1 = 25, which meets the threshold 20, so the request for the cell
is emitted on run 6. -/
def claimC7 : Prop :=
  scenDecayedAtRun 6 = 25 ∧ scenEmittedAtRun 6 = [scenCell]

/-- Heatmap with four cells whose decayed counters all reach the
threshold 20 of `scenCtx` — one more than the per-run emission cap 3. -/
def usageFourHot : UsageMap :=
  [((10, 10), 30), ((11, 10), 30), ((12, 10), 30), ((13, 10), 30)]

/-- A heatmap holding exactly the hard cap of 500 entries
(cells (0,0) … (0,499), counter 1 each). -/
def usageAtCap : UsageMap :=
  (List.range Config.ROADS_MAX_TILES_PER_ROOM).map
    (fun i => (((0 : Int), (i : Int)), (1 : Int)))

/-- Layout context for the claim C5 counterexample: an owned room whose
development level has regressed to 2, with a spawn present and a trivial
path oracle. -/
def ctxLevelDrop : LayoutCtx :=
  { ctrlMine := true
    rcl := 2
    ctrlPos := (40, 40)
    spawnPositions := [(25, 25)]
    sources := []
    storage := none
    storageLayoutMem := none
    mineral := none
    wallAt := fun _ => false
    structKindsAt := fun _ => []
    roadSiteAt := fun _ => false
    pathBetween := fun _ _ => [] }

/-- Empty creep memory (no cache, no stall history). -/
def memEmpty : CreepMem := ⟨none, none, none, none, none⟩

/-- The requesting creep of the pathing scenarios. -/
def creepR : Creep := ⟨⟨5, 5, "W1"⟩, "r1", some "me"⟩

/-- The common destination of the pathing scenarios. -/
def targetT : Pos := ⟨20, 20, "W1"⟩

/-- Path-solver oracle returning a fixed one-step route. -/
def searchOne : SearchQuery → List Pos := fun _ => [⟨6, 6, "W1"⟩]

/-- `moveByPath` oracle that always succeeds. -/
def mvOk : List Pos → Int := fun _ => RET_OK

/-- `moveByPath` oracle that always fails with a non-`OK`, non-`ERR_TIRED`
status (−5, `ERR_NOT_FOUND`). -/
def mvFail : List Pos → Int := fun _ => -5

/-- Creep memory holding a fresh, destination-matching cached route
(computed at tick 95). -/
def memCached : CreepMem :=
  ⟨some [⟨6, 6, "W1"⟩], some targetT, some 95, none, none⟩

/-- Layout context of an owned room with NO spawn (absent home anchor). -/
def ctxNoSpawn : LayoutCtx :=
  { ctxLevelDrop with spawnPositions := [] }

/-- Invariant of the border-rampart scan, relative to the initial remaining
quota `rem0`: the dedup set holds pairwise-distinct cells, the accepted
requests are counted by `created`, `created` stays within the per-run cap
and (via `remaining = rem0 − created`) within the initial quota, and every
accepted cell was free of existing and pending ramparts. -/
def BorderInv (ctx : DefenseCtx) (rem0 : Int) (st : BorderState) : Prop :=
  st.used.Nodup
  ∧ st.emitted.length = st.created
  ∧ st.created ≤ Config.DEFENSE_MAX_RAMPART_SITES_PER_RUN
  ∧ st.remaining = rem0 - (st.created : Int)
  ∧ (st.created : Int) ≤ max rem0 0
  ∧ st.emitted.all (fun c => !ctx.rampartAt c && !ctx.rampartSiteAt c) = true

/-!
## Theorems

Each claim of the checked specification gets exactly one main theorem;
corrected claims additionally get a counterexample theorem refuting the
claim as stated.  Shared helper lemmas come first within each section.
-/

/-! ### Static layout planner: claims C3, C5, C9 -/

/-- C3: repeated consecutive calls to the Static Layout Planner with
unchanged algorithm version and unchanged development level are no-ops:
whatever the first `planLayout` call did, a second call on the record it
left behind (same room context, hence same version constant and same RCL)
emits zero construction requests and leaves the record unchanged. -/
theorem planLayout_second_call_noop (mem : Option LayoutRec) (ctx : LayoutCtx) :
    planLayout (planLayout mem ctx).record ctx
      = ⟨(planLayout mem ctx).record, []⟩ := by
  by_cases hm : ctx.ctrlMine = false
  · simp [planLayout, hm]
  · by_cases hskip : (mem.getD ⟨0, 0⟩).lastRCL = ctx.rcl
        ∧ (mem.getD ⟨0, 0⟩).plannedVersion ≥ LAYOUT_VERSION
    · simp [planLayout, hm, hskip]
    · cases hsp : ctx.spawnPositions.head? with
      | none => simp [planLayout, hm, hskip, hsp]
      | some sp =>
        have h1 : (planLayout mem ctx).record = some ⟨LAYOUT_VERSION, ctx.rcl⟩ := by
          simp [planLayout, hm, hskip, hsp]
        rw [h1]
        simp [planLayout, hm, LAYOUT_VERSION]

/-- C5 counterexample: the claim "version and level are non-decreasing"
fails as stated.  A record `{version 2, lastRCL 3}` run in an owned room
whose current development level regressed to 2 replans and persists
`lastRCL = 2 < 3`. -/
theorem planLayout_level_drop_counterexample : ¬ claimC5 := by
  intro h
  have h2 := h ⟨2, 3⟩ ctxLevelDrop ⟨2, 2⟩ (by decide)
  exact absurd h2.2 (by decide)

/-- C5 amended: the persisted version and development level are
non-decreasing provided the persisted version does not exceed the current
algorithm version and the current development level is not below the
persisted one (the code re-plans on ANY level change and copies the
current level, so a level regression is copied too). -/
theorem planLayout_record_monotone (rec : LayoutRec) (ctx : LayoutCtx)
    (rec2 : LayoutRec)
    (hv : rec.plannedVersion ≤ LAYOUT_VERSION) (hl : rec.lastRCL ≤ ctx.rcl)
    (h : (planLayout (some rec) ctx).record = some rec2) :
    rec.plannedVersion ≤ rec2.plannedVersion ∧ rec.lastRCL ≤ rec2.lastRCL := by
  by_cases hm : ctx.ctrlMine = false
  · simp [planLayout, hm] at h
    simp [← h]
  · by_cases hskip : rec.lastRCL = ctx.rcl ∧ rec.plannedVersion ≥ LAYOUT_VERSION
    · simp [planLayout, hm, hskip] at h
      simp [← h]
    · cases hsp : ctx.spawnPositions.head? with
      | none =>
        simp [planLayout, hm, hskip, hsp] at h
        simp [← h]
      | some sp =>
        simp [planLayout, hm, hskip, hsp] at h
        simp [← h]
        exact ⟨hv, hl⟩

/-- C5 witness: the amended monotonicity theorem applied at a concrete
record `{version 2, lastRCL 1}` in the RCL-2 context. -/
theorem planLayout_record_monotone_witness :
    ((2 : Nat) ≤ LAYOUT_VERSION ∧ (1 : Nat) ≤ ctxLevelDrop.rcl
        ∧ (planLayout (some ⟨2, 1⟩) ctxLevelDrop).record = some ⟨2, 2⟩)
      ∧ ((2 : Nat) ≤ 2 ∧ (1 : Nat) ≤ 2) :=
  ⟨⟨by decide, by decide, by decide⟩,
    planLayout_record_monotone ⟨2, 1⟩ ctxLevelDrop ⟨2, 2⟩ (by decide) (by decide)
      (by decide)⟩

/-- C9: with the home anchor absent (no spawn), `planLayout` in an owned
room emits no construction requests, leaves the persisted record exactly as
it was, and therefore leaves the replanning trigger true, so the pass is
retried on the next call. -/
theorem planLayout_no_spawn_retries (rec : LayoutRec) (ctx : LayoutCtx)
    (hm : ctx.ctrlMine = true) (hs : ctx.spawnPositions = []) :
    planLayout (some rec) ctx = ⟨some rec, []⟩
      ∧ (layoutTrigger rec ctx.rcl →
          layoutTrigger (((planLayout (some rec) ctx).record).getD ⟨0, 0⟩) ctx.rcl) := by
  have hm' : ¬ ctx.ctrlMine = false := by simp [hm]
  by_cases hskip : rec.lastRCL = ctx.rcl ∧ rec.plannedVersion ≥ LAYOUT_VERSION
  · constructor
    · simp [planLayout, hm', hskip]
    · intro ht
      exact absurd hskip ht
  · have heq : planLayout (some rec) ctx = ⟨some rec, []⟩ := by
      simp [planLayout, hm', hskip, hs]
    refine ⟨heq, ?_⟩
    intro ht
    rw [heq]
    exact ht

/-- C9 witness: the no-spawn theorem applied in the concrete owned,
spawn-less context with a not-yet-planned record. -/
theorem planLayout_no_spawn_retries_witness :
    (ctxNoSpawn.ctrlMine = true ∧ ctxNoSpawn.spawnPositions = [])
      ∧ (planLayout (some ⟨0, 0⟩) ctxNoSpawn = ⟨some ⟨0, 0⟩, []⟩
        ∧ (layoutTrigger ⟨0, 0⟩ ctxNoSpawn.rcl →
            layoutTrigger (((planLayout (some ⟨0, 0⟩) ctxNoSpawn).record).getD ⟨0, 0⟩)
              ctxNoSpawn.rcl)) :=
  ⟨⟨rfl, rfl⟩, planLayout_no_spawn_retries ⟨0, 0⟩ ctxNoSpawn rfl rfl⟩

/-! ### Perimeter defense planner: claim C8 -/

/-- One `tryPlace` step preserves the border-scan invariant. -/
theorem tryPlaceRampart_inv (ctx : DefenseCtx) (rem0 : Int) (st : BorderState)
    (c : Cell) (h : BorderInv ctx rem0 st) :
    BorderInv ctx rem0 (tryPlaceRampart ctx st c) := by
  obtain ⟨h1, h2, h3, h4, h5, h6⟩ := h
  unfold tryPlaceRampart
  split
  · exact ⟨h1, h2, h3, h4, h5, h6⟩
  next hguard =>
    split
    · exact ⟨h1, h2, h3, h4, h5, h6⟩
    split
    · exact ⟨h1, h2, h3, h4, h5, h6⟩
    split
    · exact ⟨h1, h2, h3, h4, h5, h6⟩
    next hnotin =>
      have hused : (c :: st.used).Nodup := List.nodup_cons.mpr ⟨hnotin, h1⟩
      split
      · exact ⟨hused, h2, h3, h4, h5, h6⟩
      next hramp =>
        split
        · exact ⟨hused, h2, h3, h4, h5, h6⟩
        next hsite =>
          split
          · have hcap : st.created < Config.DEFENSE_MAX_RAMPART_SITES_PER_RUN
                ∧ 0 < st.remaining := by
              rcases not_or.mp hguard with ⟨ha, hb⟩
              exact ⟨Nat.lt_of_not_le ha, lt_of_not_le hb⟩
            refine ⟨hused, ?_, ?_, ?_, ?_, ?_⟩
            · simp [h2]
            · exact hcap.1
            · show st.remaining - 1 = rem0 - ((st.created + 1 : Nat) : Int)
              rw [h4]
              push_cast
              ring
            · have : (st.created : Int) < rem0 := by
                have := hcap.2
                rw [h4] at this
                omega
              have hmax : (st.created : Int) + 1 ≤ max rem0 0 :=
                le_trans (by omega) (le_max_left rem0 0)
              show (((st.created + 1 : Nat)) : Int) ≤ max rem0 0
              push_cast
              exact hmax
            · simp [List.all_append, h6, hramp, hsite]
          · exact ⟨hused, h2, h3, h4, h5, h6⟩

/-- Folding `tryPlace` over any candidate list preserves the invariant. -/
theorem borderFold_inv (ctx : DefenseCtx) (rem0 : Int) :
    ∀ (cs : List Cell) (st : BorderState), BorderInv ctx rem0 st →
      BorderInv ctx rem0 (cs.foldl (tryPlaceRampart ctx) st)
  | [], _, h => h
  | c :: cs, st, h =>
    borderFold_inv ctx rem0 cs (tryPlaceRampart ctx st c)
      (tryPlaceRampart_inv ctx rem0 st c h)

/-- C8: in one run of the border scan, the number of accepted rampart
requests never exceeds the per-run cap nor the remaining quota
(`allowed − existing − pending`, floored at zero), each candidate
boundary-inward cell enters the dedup set at most once (so corner cells
reachable from two edges are attempted once), and no request is emitted
for a cell already hosting or pending a rampart. -/
theorem planRampartBorders_caps (ctx : DefenseCtx) (allowed : Int)
    (existing pending : Nat) :
    ((planRampartBorders ctx allowed existing pending).emitted).length
        ≤ Config.DEFENSE_MAX_RAMPART_SITES_PER_RUN
      ∧ (((planRampartBorders ctx allowed existing pending).emitted).length : Int)
          ≤ max (allowed - (existing : Int) - (pending : Int)) 0
      ∧ ((planRampartBorders ctx allowed existing pending).used).Nodup
      ∧ ((planRampartBorders ctx allowed existing pending).emitted).all
          (fun c => !ctx.rampartAt c && !ctx.rampartSiteAt c) = true := by
  have hmax : (0 : Int) ≤ max (allowed - (existing : Int) - (pending : Int)) 0 :=
    le_max_right _ _
  unfold planRampartBorders
  split
  · exact ⟨by simp, by simp, List.nodup_nil, rfl⟩
  split
  · exact ⟨by simp, by simp, List.nodup_nil, rfl⟩
  have hinit : BorderInv ctx (allowed - (existing : Int) - (pending : Int))
      ⟨0, allowed - (existing : Int) - (pending : Int), [], []⟩ :=
    ⟨List.nodup_nil, rfl, by simp [Config.DEFENSE_MAX_RAMPART_SITES_PER_RUN],
      by simp, by simp, rfl⟩
  obtain ⟨h1, h2, h3, h4, h5, h6⟩ :=
    borderFold_inv ctx (allowed - (existing : Int) - (pending : Int))
      (borderCandidates ctx.wallAt) _ hinit
  refine ⟨?_, ?_, h1, h6⟩
  · rw [h2]; exact h3
  · rw [h2]; exact h5

/-! ### Dynamic usage-based road planner: claims C2, C6, C7 -/

/-- With every request accepted by the world, the loop of `run` emits
exactly the first `cap − created` qualifying entries of its snapshot, in
iteration order. -/
theorem runLoop_emitted_char (ctx : RoomCtx) (thr : Int)
    (hOk : ∀ k, ctx.siteOk k = true) :
    ∀ (entries : List (Cell × Int)) (u : UsageMap) (created : Nat) (em : List Cell),
      (runLoop ctx thr entries u created em).2
        = em ++ ((entries.filter (roadQualifies ctx thr)).take
            (Config.ROADS_MAX_SITES_PER_RUN - created)).map Prod.fst := by
  intro entries
  induction entries with
  | nil => intro u created em; simp [runLoop]
  | cons e rest ih =>
    intro u created em
    obtain ⟨k, c⟩ := e
    by_cases hcap : created ≥ Config.ROADS_MAX_SITES_PER_RUN
    · have h0 : Config.ROADS_MAX_SITES_PER_RUN - created = 0 := by omega
      simp [runLoop, hcap, h0]
    · by_cases h1 : max 0 (c - Config.ROADS_DECAY_PER_RUN) < thr
      · simp [runLoop, hcap, h1, roadQualifies, ih]
      · by_cases h2 : ctx.wallAt k = true
        · simp [runLoop, hcap, h1, h2, roadQualifies, ih]
        · by_cases h3 : k = ctx.ctrlPos
          · rw [h3] at h2
            simp [runLoop, hcap, h1, h2, h3, roadQualifies, ih]
          · by_cases h4 : ctx.spawnPositions.any (fun s => decide (s = k)) = true
            · simp [runLoop, hcap, h1, h2, h3, h4, roadQualifies, ih]
            · by_cases h5 : ctx.roadAt k = true
              · simp [runLoop, hcap, h1, h2, h3, h4, h5, roadQualifies, ih]
              · by_cases h6 : ctx.roadSiteAt k = true
                · simp [runLoop, hcap, h1, h2, h3, h4, h5, h6, roadQualifies, ih]
                · have hq : roadQualifies ctx thr (k, c) = true := by
                    simp [roadQualifies, h1, h2, h3, h4, h5, h6]
                  have hsub : Config.ROADS_MAX_SITES_PER_RUN - created
                      = (Config.ROADS_MAX_SITES_PER_RUN - (created + 1)) + 1 := by
                    omega
                  simp [runLoop, hcap, h1, h2, h3, h4, h5, h6, hOk k, hq, ih, hsub]

/-- When the tracked-cell count is within the hard cap, the eviction step
is the identity. -/
theorem evictOverCap_id (u : UsageMap)
    (hlen : u.length ≤ Config.ROADS_MAX_TILES_PER_ROOM) :
    evictOverCap u = (u, u) := by
  unfold evictOverCap
  rw [if_neg]
  omega

/-- C2 counterexample: the claimed "emitted if and only if qualifying"
fails as stated.  With four qualifying cells and the per-run cap of 3, the
fourth qualifying cell `(13,10)` gets no request during the run. -/
theorem roadUsage_iff_counterexample : ¬ claimC2 := by
  intro h
  have h2 := h scenCtx 0 usageFourHot rfl (by decide) (by decide) (fun _ => rfl)
    ((13, 10), 30) (by decide)
  have hq : roadQualifies scenCtx (dynamicMinUsage scenCtx.rcl) ((13, 10), 30) = true := by
    decide
  exact absurd (h2.mpr hq) (by decide)

/-- C2 amended: during a periodic run (owned room, interval tick, tracked
cells within the hard cap, requests accepted), road requests are emitted
exactly for the first up-to-cap qualifying cells in iteration order — i.e.
a cell's request is emitted iff its decayed counter reaches the threshold,
it passes every legality check, AND fewer than the per-run cap of
qualifying cells precede it in the snapshot order. -/
theorem roadUsage_run_emitted_iff (ctx : RoomCtx) (time : Nat) (u : UsageMap)
    (hmine : ctx.ctrlMine = true)
    (htime : time % Config.ROADS_TICK_INTERVAL = 0)
    (hlen : u.length ≤ Config.ROADS_MAX_TILES_PER_ROOM)
    (hOk : ∀ k, ctx.siteOk k = true) :
    (runUsage ctx time u).emitted
      = ((u.filter (roadQualifies ctx (dynamicMinUsage ctx.rcl))).take
          Config.ROADS_MAX_SITES_PER_RUN).map Prod.fst := by
  unfold runUsage
  rw [if_neg (by simp [hmine]), if_neg (by simp [htime])]
  simp only [evictOverCap_id u hlen]
  rw [runLoop_emitted_char ctx (dynamicMinUsage ctx.rcl) hOk u u 0 []]
  simp

/-- C2 witness: the amended theorem applied to the four-hot-cell heatmap in
the small owned room; exactly the first three qualifying cells are
emitted. -/
theorem roadUsage_run_emitted_iff_witness :
    (scenCtx.ctrlMine = true ∧ 0 % Config.ROADS_TICK_INTERVAL = 0
        ∧ usageFourHot.length ≤ Config.ROADS_MAX_TILES_PER_ROOM
        ∧ ∀ k, scenCtx.siteOk k = true)
      ∧ (runUsage scenCtx 0 usageFourHot).emitted
          = ((usageFourHot.filter
                (roadQualifies scenCtx (dynamicMinUsage scenCtx.rcl))).take
              Config.ROADS_MAX_SITES_PER_RUN).map Prod.fst :=
  ⟨⟨rfl, by decide, by decide, fun _ => rfl⟩,
    roadUsage_run_emitted_iff scenCtx 0 usageFourHot rfl (by decide) (by decide)
      (fun _ => rfl)⟩

/-- Any listed entry's key is found by `lookupCell`. -/
theorem lookupCell_ne_none_of_mem :
    ∀ (u : UsageMap) (e : Cell × Int), e ∈ u → lookupCell u e.1 ≠ none
  | [], e, h => by simp at h
  | f :: rest, e, h => by
    rcases List.mem_cons.mp h with h1 | h2
    · subst h1
      simp [lookupCell]
    · by_cases hk : f.1 = e.1
      · simp [lookupCell, hk]
      · simp only [lookupCell, if_neg hk]
        exact lookupCell_ne_none_of_mem rest e h2

/-- `lookupCell` after writing a different key is unchanged. -/
theorem lookupCell_setCell_ne :
    ∀ (u : UsageMap) (k q : Cell) (v : Int), q ≠ k →
      lookupCell (setCell u k v) q = lookupCell u q
  | [], k, q, v, h => by simp [setCell, lookupCell, Ne.symm h]
  | f :: rest, k, q, v, h => by
    by_cases hk : f.1 = k
    · subst hk
      simp [setCell, lookupCell, Ne.symm h]
    · simp only [setCell, if_neg hk, lookupCell]
      by_cases hq : f.1 = q
      · simp [hq]
      · simp only [if_neg hq]
        exact lookupCell_setCell_ne rest k q v h

/-- `lookupCell` of the key just written. -/
theorem lookupCell_setCell_self :
    ∀ (u : UsageMap) (k : Cell) (v : Int), lookupCell (setCell u k v) k = some v
  | [], k, v => by simp [setCell, lookupCell]
  | f :: rest, k, v => by
    by_cases hk : f.1 = k
    · simp [setCell, hk, lookupCell]
    · simp only [setCell, if_neg hk, lookupCell, if_neg hk]
      exact lookupCell_setCell_self rest k v

/-- `lookupCell` after deleting a different key is unchanged. -/
theorem lookupCell_delCell_ne :
    ∀ (u : UsageMap) (k q : Cell), q ≠ k →
      lookupCell (delCell u k) q = lookupCell u q
  | [], _, _, _ => rfl
  | f :: rest, k, q, h => by
    by_cases hk : f.1 = k
    · have : delCell (f :: rest) k = delCell rest k := by
        simp [delCell, List.filter, hk]
      rw [this, lookupCell_delCell_ne rest k q h]
      have hfq : f.1 ≠ q := by
        rw [hk]
        exact fun hh => h hh.symm
      simp [lookupCell, hfq]
    · have : delCell (f :: rest) k = f :: delCell rest k := by
        simp [delCell, List.filter, hk]
      rw [this]
      simp only [lookupCell]
      by_cases hq : f.1 = q
      · simp [hq]
      · simp only [if_neg hq]
        exact lookupCell_delCell_ne rest k q h

/-- Writing an existing key does not change the entry count. -/
theorem length_setCell_of_found :
    ∀ (u : UsageMap) (k : Cell) (v : Int), lookupCell u k ≠ none →
      (setCell u k v).length = u.length
  | [], k, v, h => absurd rfl h
  | f :: rest, k, v, h => by
    by_cases hk : f.1 = k
    · simp [setCell, hk]
    · simp only [setCell, if_neg hk, List.length_cons]
      have hr : lookupCell rest k ≠ none := by
        simpa [lookupCell, if_neg hk] using h
      rw [length_setCell_of_found rest k v hr]

/-- Deleting never increases the entry count. -/
theorem length_delCell_le (u : UsageMap) (k : Cell) :
    (delCell u k).length ≤ u.length :=
  List.length_filter_le _ u

/-- The processing loop of `run` never grows the usage object, as long as
its snapshot lists pairwise-distinct keys that are all present in the
object: every write hits an existing key and deletes only shrink it. -/
theorem runLoop_length_le (ctx : RoomCtx) (thr : Int) :
    ∀ (entries : List (Cell × Int)) (u : UsageMap) (created : Nat) (em : List Cell),
      (∀ e ∈ entries, lookupCell u e.1 ≠ none) →
      ((entries.map Prod.fst).Nodup) →
      ((runLoop ctx thr entries u created em).1).length ≤ u.length := by
  intro entries
  induction entries with
  | nil => intro u created em _ _; simp [runLoop]
  | cons e rest ih =>
    intro u created em hfound hnd
    obtain ⟨k, c⟩ := e
    have hk : lookupCell u k ≠ none := hfound (k, c) (List.mem_cons_self _ _)
    rw [List.map_cons] at hnd
    have hnd2 := List.nodup_cons.mp hnd
    have hkr : ∀ f ∈ rest, f.1 ≠ k := by
      intro f hf hEq
      have hmem : f.1 ∈ rest.map Prod.fst := List.mem_map_of_mem Prod.fst hf
      rw [hEq] at hmem
      exact hnd2.1 hmem
    have hndr : (rest.map Prod.fst).Nodup := hnd2.2
    by_cases hcap : created ≥ Config.ROADS_MAX_SITES_PER_RUN
    · simp [runLoop, hcap]
    · have hlen1 : (setCell u k (max 0 (c - Config.ROADS_DECAY_PER_RUN))).length
          = u.length := length_setCell_of_found u k _ hk
      have hfound1 : ∀ f ∈ rest,
          lookupCell (setCell u k (max 0 (c - Config.ROADS_DECAY_PER_RUN))) f.1 ≠ none := by
        intro f hf
        rw [lookupCell_setCell_ne u k f.1 _ (hkr f hf)]
        exact hfound f (List.mem_cons_of_mem _ hf)
      have hfoundDel : ∀ f ∈ rest,
          lookupCell (delCell (setCell u k (max 0 (c - Config.ROADS_DECAY_PER_RUN))) k) f.1
            ≠ none := by
        intro f hf
        rw [lookupCell_delCell_ne _ k f.1 (hkr f hf)]
        exact hfound1 f hf
      have hlenDel :
          (delCell (setCell u k (max 0 (c - Config.ROADS_DECAY_PER_RUN))) k).length
            ≤ u.length := by
        calc (delCell (setCell u k (max 0 (c - Config.ROADS_DECAY_PER_RUN))) k).length
            ≤ (setCell u k (max 0 (c - Config.ROADS_DECAY_PER_RUN))).length :=
              length_delCell_le _ _
          _ = u.length := hlen1
      have hfound0 : ∀ f ∈ rest,
          lookupCell (setCell (setCell u k (max 0 (c - Config.ROADS_DECAY_PER_RUN))) k 0) f.1
            ≠ none := by
        intro f hf
        rw [lookupCell_setCell_ne _ k f.1 0 (hkr f hf)]
        exact hfound1 f hf
      have hlen0 :
          (setCell (setCell u k (max 0 (c - Config.ROADS_DECAY_PER_RUN))) k 0).length
            = u.length := by
        rw [length_setCell_of_found _ k 0 (by rw [lookupCell_setCell_self]; simp), hlen1]
      by_cases h1 : max 0 (c - Config.ROADS_DECAY_PER_RUN) < thr
      · simp only [runLoop, if_neg hcap, if_pos h1]
        exact le_trans (ih _ created em hfound1 hndr) (le_of_eq hlen1)
      · by_cases h2 : ctx.wallAt k = true
        · simp only [runLoop, if_neg hcap, if_neg h1, if_pos h2]
          exact le_trans (ih _ created em hfoundDel hndr) hlenDel
        · by_cases h3 : k = ctx.ctrlPos
          · simp only [runLoop, if_neg hcap, if_neg h1, if_neg h2, if_pos h3]
            exact le_trans (ih _ created em hfound1 hndr) (le_of_eq hlen1)
          · by_cases h4 : ctx.spawnPositions.any (fun s => decide (s = k)) = true
            · simp only [runLoop, if_neg hcap, if_neg h1, if_neg h2, if_neg h3, if_pos h4]
              exact le_trans (ih _ created em hfound1 hndr) (le_of_eq hlen1)
            · by_cases h5 : ctx.roadAt k = true
              · simp only [runLoop, if_neg hcap, if_neg h1, if_neg h2, if_neg h3, if_neg h4,
                  if_pos h5]
                exact le_trans (ih _ created em hfoundDel hndr) hlenDel
              · by_cases h6 : ctx.roadSiteAt k = true
                · simp only [runLoop, if_neg hcap, if_neg h1, if_neg h2, if_neg h3, if_neg h4,
                    if_neg h5, if_pos h6]
                  exact le_trans (ih _ created em hfound1 hndr) (le_of_eq hlen1)
                · by_cases h7 : ctx.siteOk k = true
                  · simp only [runLoop, if_neg hcap, if_neg h1, if_neg h2, if_neg h3, if_neg h4,
                      if_neg h5, if_neg h6, if_pos h7]
                    exact le_trans (ih _ (created + 1) (em ++ [k]) hfound0 hndr)
                      (le_of_eq hlen0)
                  · simp only [runLoop, if_neg hcap, if_neg h1, if_neg h2, if_neg h3, if_neg h4,
                      if_neg h5, if_neg h6, if_neg h7]
                    exact le_trans (ih _ created em hfound1 hndr) (le_of_eq hlen1)

/-- A filter whose predicate rejects the whole length-`n` prefix keeps at
most `length − n` elements. -/
theorem length_filter_le_of_prefix_rejected {α : Type} (l : List α) (n : Nat)
    (p : α → Bool) (h : ∀ a ∈ l.take n, p a = false) :
    (l.filter p).length ≤ l.length - n := by
  conv_lhs => rw [← List.take_append_drop n l]
  rw [List.filter_append]
  have hnil : (l.take n).filter p = [] := List.filter_eq_nil_iff.mpr (by
    intro a ha
    simp [h a ha])
  rw [hnil, List.nil_append]
  calc ((l.drop n).filter p).length
      ≤ (l.drop n).length := List.length_filter_le _ _
    _ = l.length - n := List.length_drop n l

/-- After the eviction step of `run`, at most the hard cap of entries
remains in the usage object. -/
theorem evictOverCap_length_le (u : UsageMap) :
    ((evictOverCap u).1).length ≤ Config.ROADS_MAX_TILES_PER_ROOM := by
  unfold evictOverCap
  split
  next hgt =>
    have hperm : List.Perm
        ((u.insertionSort usageLE).filter (fun e => decide (e.1 ∉
          ((u.insertionSort usageLE).take
            (u.length - Config.ROADS_MAX_TILES_PER_ROOM)).map Prod.fst)))
        (u.filter (fun e => decide (e.1 ∉
          ((u.insertionSort usageLE).take
            (u.length - Config.ROADS_MAX_TILES_PER_ROOM)).map Prod.fst))) :=
      (List.perm_insertionSort usageLE u).filter _
    have hlen2 := length_filter_le_of_prefix_rejected (u.insertionSort usageLE)
      (u.length - Config.ROADS_MAX_TILES_PER_ROOM)
      (fun e => decide (e.1 ∉
        ((u.insertionSort usageLE).take
          (u.length - Config.ROADS_MAX_TILES_PER_ROOM)).map Prod.fst))
      (by
        intro a ha
        have hmem : a.1 ∈ ((u.insertionSort usageLE).take
            (u.length - Config.ROADS_MAX_TILES_PER_ROOM)).map Prod.fst :=
          List.mem_map_of_mem Prod.fst ha
        rw [List.map_take] at hmem
        simp [hmem])
    rw [hperm.length_eq, (List.perm_insertionSort usageLE u).length_eq] at hlen2
    exact le_trans hlen2 (by omega)
  next hle =>
    exact (by omega : u.length ≤ Config.ROADS_MAX_TILES_PER_ROOM)

set_option maxRecDepth 40000 in
/-- After the eviction step, the remaining snapshot still has
pairwise-distinct keys. -/
theorem evictOverCap_snd_nodup (u : UsageMap) (h : (u.map Prod.fst).Nodup) :
    (((evictOverCap u).2).map Prod.fst).Nodup := by
  unfold evictOverCap
  split
  next hgt =>
    have hndS : ((u.insertionSort usageLE).map Prod.fst).Nodup :=
      (((List.perm_insertionSort usageLE u).map Prod.fst).nodup_iff).mpr h
    exact hndS.sublist ((List.drop_sublist _ _).map Prod.fst)
  next hle => exact h

set_option maxRecDepth 40000 in
/-- After the eviction step, every key of the remaining snapshot is still
present in the usage object. -/
theorem evictOverCap_snd_found (u : UsageMap) (h : (u.map Prod.fst).Nodup) :
    ∀ e ∈ (evictOverCap u).2, lookupCell ((evictOverCap u).1) e.1 ≠ none := by
  unfold evictOverCap
  split
  next hgt =>
    intro e he
    have hndS : ((u.insertionSort usageLE).map Prod.fst).Nodup :=
      (((List.perm_insertionSort usageLE u).map Prod.fst).nodup_iff).mpr h
    have hsplit : (u.insertionSort usageLE).map Prod.fst
        = ((u.insertionSort usageLE).take
            (u.length - Config.ROADS_MAX_TILES_PER_ROOM)).map Prod.fst
          ++ ((u.insertionSort usageLE).drop
            (u.length - Config.ROADS_MAX_TILES_PER_ROOM)).map Prod.fst := by
      rw [← List.map_append, List.take_append_drop]
    rw [hsplit] at hndS
    have hdisj := (List.nodup_append.mp hndS).2.2
    have he1 : e.1 ∈ ((u.insertionSort usageLE).drop
        (u.length - Config.ROADS_MAX_TILES_PER_ROOM)).map Prod.fst :=
      List.mem_map_of_mem Prod.fst he
    have hnotin : e.1 ∉ ((u.insertionSort usageLE).take
        (u.length - Config.ROADS_MAX_TILES_PER_ROOM)).map Prod.fst :=
      fun hin => hdisj hin he1
    have heu : e ∈ u :=
      (List.perm_insertionSort usageLE u).subset (List.mem_of_mem_drop he)
    have hmemf : e ∈ u.filter (fun x => decide (x.1 ∉
        ((u.insertionSort usageLE).take
          (u.length - Config.ROADS_MAX_TILES_PER_ROOM)).map Prod.fst)) :=
      List.mem_filter.mpr ⟨heu, decide_eq_true hnotin⟩
    exact lookupCell_ne_none_of_mem _ e hmemf
  next hle =>
    intro e he
    exact lookupCell_ne_none_of_mem u e he

set_option maxRecDepth 40000 in
/-- C6 counterexample: the claim fails as stated.  With the heatmap at
exactly the 500-entry hard cap, a visitation of a not-yet-tracked cell
inserts WITHOUT evicting — `trackStep` performs no eviction at all — so the
count rises to 501 between periodic runs. -/
theorem heatmap_visitation_counterexample : ¬ claimC6 := by
  intro h
  have h2 := h ((1 : Int), (0 : Int)) "W1" none usageAtCap (by decide) (by decide)
  exact absurd h2 (by decide)

/-- C6 amended: eviction of lowest-usage entries down to the cap happens at
the start of the next periodic run, not at visitation time; the entry count
may exceed the cap between runs, but after any periodic run that actually
executes (owned room, interval tick, distinct tracked keys) the count is at
most the hard cap. -/
theorem runUsage_entry_cap (ctx : RoomCtx) (time : Nat) (u : UsageMap)
    (hmine : ctx.ctrlMine = true)
    (htime : time % Config.ROADS_TICK_INTERVAL = 0)
    (hnd : (u.map Prod.fst).Nodup) :
    ((runUsage ctx time u).usage).length ≤ Config.ROADS_MAX_TILES_PER_ROOM := by
  unfold runUsage
  rw [if_neg (by simp [hmine]), if_neg (by simp [htime])]
  exact le_trans
    (runLoop_length_le ctx (dynamicMinUsage ctx.rcl) (evictOverCap u).2 (evictOverCap u).1
      0 [] (evictOverCap_snd_found u hnd) (evictOverCap_snd_nodup u hnd))
    (evictOverCap_length_le u)

set_option maxRecDepth 40000 in
/-- C6 witness: the amended cap theorem applied to a one-entry heatmap in
the small owned room. -/
theorem runUsage_entry_cap_witness :
    (scenCtx.ctrlMine = true ∧ 0 % Config.ROADS_TICK_INTERVAL = 0
        ∧ (([(((1 : Int), (1 : Int)), (5 : Int))] : UsageMap).map Prod.fst).Nodup)
      ∧ ((runUsage scenCtx 0 [(((1 : Int), (1 : Int)), (5 : Int))]).usage).length
          ≤ Config.ROADS_MAX_TILES_PER_ROOM :=
  ⟨⟨rfl, by decide, by decide⟩,
    runUsage_entry_cap scenCtx 0 [(((1 : Int), (1 : Int)), (5 : Int))] rfl (by decide)
      (by decide)⟩

set_option maxRecDepth 40000 in
/-- C7 counterexample: Scenario B fails as stated.  With gains of 5 per run
and decay 1 applied before each threshold check, the decayed value at run 6
is 4 (the counter was already reset at run 5), not 25, and no request is
emitted on run 6. -/
theorem scenario_b_counterexample : ¬ claimC7 := by
  intro h
  exact absurd h.1 (by decide)

set_option maxRecDepth 40000 in
/-- C7 amended: under Scenario B's numbers the decayed value reaches the
threshold 20 one run earlier than claimed: at run 5 it equals
5×5 − 5×1 = 20 ≥ 20, the request is emitted on run 5 and the counter is
reset to zero, leaving run 6 with decayed value 4 and no emission. -/
theorem scenario_b_run5 :
    scenEmittedAtRun 5 = [scenCell]
      ∧ scenDecayedAtRun 5 = 20
      ∧ lookupCell (scenAfterRun 5) scenCell = some 0
      ∧ scenEmittedAtRun 6 = [] :=
  ⟨by decide, by decide, by decide, by decide⟩

/-! ### Agent movement and path cache: claims C1, C4, C10 -/

set_option maxRecDepth 40000 in
/-- C1 counterexample: the claim fails as stated.  The cache stores no
acceptance radius and `_useCachedPath` never compares one: a second
`moveTo` call to the SAME destination with a DIFFERENT radius (3 instead
of 1), well inside the reuse window, still follows the cached route
instead of recomputing. -/
theorem cache_radius_counterexample : ¬ claimC1 := by
  intro h
  have h2 := h creepR targetT targetT 1 3 2000 10 100 101 [] [] searchOne mvOk 0 memEmpty
  have hL : (moveTo creepR targetT 3 2000 10 101 [] [] searchOne mvOk 0
      (moveTo creepR targetT 1 2000 10 100 [] [] searchOne mvOk 0
        memEmpty).mem).computedNew = false := by decide
  exact absurd (h2.mp hL).2.1 (by decide)

/-- C1 amended: a cached route is followed if and only if a route and a
target are cached, the cached target's coordinates and room equal the
requested destination exactly, the entry's age is at most the reuse window
(when a compute tick is recorded), and following the route returns success
or the fatigue status.  The acceptance radius is not stored in the cache
and not compared. -/
theorem useCachedPath_spec (mem : CreepMem) (t : Pos) (reuse time : Int)
    (mv : List Pos → Int) :
    (useCachedPath mem t reuse time mv).used = true ↔
      (∃ p ct, mem.path = some p ∧ mem.pathTarget = some ct ∧ ct = t
        ∧ (∀ st, mem.pathSetTick = some st → time - st ≤ reuse)
        ∧ (mv p = RET_OK ∨ mv p = RET_ERR_TIRED)) := by
  cases hp : mem.path with
  | none => simp [useCachedPath, hp]
  | some p =>
    cases ht : mem.pathTarget with
    | none => simp [useCachedPath, hp, ht]
    | some ct =>
      by_cases hmis : ct.roomName ≠ t.roomName ∨ ct.x ≠ t.x ∨ ct.y ≠ t.y
      · have hne : ct ≠ t := by
          intro hEq
          subst hEq
          simp at hmis
        refine iff_of_false ?_ ?_
        · simp [useCachedPath, hp, ht, hmis]
        · rintro ⟨p2, ct2, -, hct2, hEq, -, -⟩
          cases hct2
          exact hne hEq
      · have hct : ct = t := by
          push_neg at hmis
          obtain ⟨h1, h2, h3⟩ := hmis
          cases ct
          cases t
          simp_all
        subst hct
        cases hst : mem.pathSetTick with
        | none =>
          by_cases hmv : mv p = RET_OK ∨ mv p = RET_ERR_TIRED
          · refine iff_of_true ?_ ?_
            · simp [useCachedPath, hp, ht, hmis, hst, followCached, hmv]
            · refine ⟨p, ct, rfl, rfl, rfl, ?_, hmv⟩
              intro st hs
              exact absurd hs (by simp)
          · refine iff_of_false ?_ ?_
            · simp [useCachedPath, hp, ht, hmis, hst, followCached, hmv]
            · rintro ⟨p2, ct2, hp2, -, -, -, hmv2⟩
              cases hp2
              exact hmv hmv2
        | some st =>
          by_cases hstale : time - st > reuse
          · refine iff_of_false ?_ ?_
            · simp [useCachedPath, hp, ht, hmis, hst, hstale]
            · rintro ⟨p2, ct2, -, -, -, hage, -⟩
              exact absurd (hage st rfl) (by omega)
          · by_cases hmv : mv p = RET_OK ∨ mv p = RET_ERR_TIRED
            · refine iff_of_true ?_ ?_
              · simp [useCachedPath, hp, ht, hmis, hst, hstale, followCached, hmv]
              · refine ⟨p, ct, rfl, rfl, rfl, ?_, hmv⟩
                intro st2 hs
                cases hs
                omega
            · refine iff_of_false ?_ ?_
              · simp [useCachedPath, hp, ht, hmis, hst, hstale, followCached, hmv]
              · rintro ⟨p2, ct2, hp2, -, -, -, hmv2⟩
                cases hp2
                exact hmv hmv2

/-- When the creep's position differs from its recorded last-move position
(or none is recorded), stuck detection only refreshes the position record
and resets the stall counter. -/
theorem checkStuck_moved (mem : CreepMem) (pos : Pos) (rand : Nat)
    (h : ∀ l, mem.lastMovePos = some l →
      (l.x ≠ pos.x ∨ l.y ≠ pos.y ∨ l.roomName ≠ pos.roomName)) :
    (checkStuck mem pos rand).mem
      = { mem with lastMovePos := some pos, stuckTicks := some 0 } := by
  cases hl : mem.lastMovePos with
  | none => simp [checkStuck, hl]
  | some l => simp [checkStuck, hl, h l hl]

/-- A destination-matching, fresh cached route whose follow attempt fails
with a status other than `OK`/`ERR_TIRED` is not used, and the cache is
cleared. -/
theorem useCachedPath_broken (mem : CreepMem) (t : Pos) (reuse time : Int)
    (mv : List Pos → Int) (p : List Pos)
    (hp : mem.path = some p) (ht : mem.pathTarget = some t)
    (hage : ∀ st, mem.pathSetTick = some st → time - st ≤ reuse)
    (hmv1 : mv p ≠ RET_OK) (hmv2 : mv p ≠ RET_ERR_TIRED) :
    useCachedPath mem t reuse time mv = ⟨false, clearPathCache mem⟩ := by
  have hmv : ¬ (mv p = RET_OK ∨ mv p = RET_ERR_TIRED) := not_or.mpr ⟨hmv1, hmv2⟩
  cases hst : mem.pathSetTick with
  | none => simp [useCachedPath, hp, ht, hst, followCached, hmv]
  | some st =>
    have hfresh : ¬ time - st > reuse := by
      have := hage st hst
      omega
    simp [useCachedPath, hp, ht, hst, hfresh, followCached, hmv]

/-- C10: when following a cached route fails with any status other than
success or fatigue — even though the cached destination matches and the
entry is within the reuse window — `moveTo` clears the cache and computes a
fresh route within the same call: the search oracle is consulted, the new
route is cached with the current tick, and `OK` is returned. -/
theorem moveTo_broken_path_recomputes (creep : Creep) (target : Pos)
    (range maxOps : Nat) (reuse time : Int)
    (structures : List RoomStruct) (creeps : List RoomCreep)
    (search : SearchQuery → List Pos) (mv : List Pos → Int) (rand : Nat)
    (mem : CreepMem) (p sp : List Pos)
    (hlast : ∀ l, mem.lastMovePos = some l →
      (l.x ≠ creep.pos.x ∨ l.y ≠ creep.pos.y ∨ l.roomName ≠ creep.pos.roomName))
    (hp : mem.path = some p) (ht : mem.pathTarget = some target)
    (hage : ∀ st, mem.pathSetTick = some st → time - st ≤ reuse)
    (hmv1 : mv p ≠ RET_OK) (hmv2 : mv p ≠ RET_ERR_TIRED)
    (hsp : search (moveQuery creep.pos target range maxOps structures creeps
      creep.name creep.owner) = sp)
    (hne : sp ≠ []) :
    (moveTo creep target range maxOps reuse time structures creeps search mv rand mem).ret
        = RET_OK
      ∧ (moveTo creep target range maxOps reuse time structures creeps search mv rand
          mem).computedNew = true
      ∧ (moveTo creep target range maxOps reuse time structures creeps search mv rand
          mem).mem.path = some sp
      ∧ (moveTo creep target range maxOps reuse time structures creeps search mv rand
          mem).mem.pathTarget = some target
      ∧ (moveTo creep target range maxOps reuse time structures creeps search mv rand
          mem).mem.pathSetTick = some time := by
  have hcs : (checkStuck mem creep.pos rand).mem
      = { mem with lastMovePos := some creep.pos, stuckTicks := some 0 } :=
    checkStuck_moved mem creep.pos rand hlast
  have hfail := useCachedPath_broken
    { mem with lastMovePos := some creep.pos, stuckTicks := some 0 }
    target reuse time mv p hp ht hage hmv1 hmv2
  simp only [moveTo, hcs, hfail, hsp]
  simp [hne, setCachedPath]

/-- C10 witness: the recomputation theorem applied to a concrete fresh,
destination-matching cache whose follow attempt fails with status −5. -/
theorem moveTo_broken_path_recomputes_witness :
    (memCached.path = some [⟨6, 6, "W1"⟩]
        ∧ memCached.pathTarget = some targetT
        ∧ mvFail [⟨6, 6, "W1"⟩] ≠ RET_OK
        ∧ mvFail [⟨6, 6, "W1"⟩] ≠ RET_ERR_TIRED)
      ∧ ((moveTo creepR targetT 1 2000 10 100 [] [] searchOne mvFail 0 memCached).ret
            = RET_OK
        ∧ (moveTo creepR targetT 1 2000 10 100 [] [] searchOne mvFail 0
            memCached).computedNew = true
        ∧ (moveTo creepR targetT 1 2000 10 100 [] [] searchOne mvFail 0
            memCached).mem.path = some [⟨6, 6, "W1"⟩]
        ∧ (moveTo creepR targetT 1 2000 10 100 [] [] searchOne mvFail 0
            memCached).mem.pathTarget = some targetT
        ∧ (moveTo creepR targetT 1 2000 10 100 [] [] searchOne mvFail 0
            memCached).mem.pathSetTick = some 100) :=
  ⟨⟨rfl, rfl, by decide, by decide⟩,
    moveTo_broken_path_recomputes creepR targetT 1 2000 10 100 [] [] searchOne mvFail 0
      memCached [⟨6, 6, "W1"⟩] [⟨6, 6, "W1"⟩]
      (fun l h => absurd h (by simp [memCached]))
      rfl rfl (fun st h => by simp [memCached] at h; omega)
      (by decide) (by decide) rfl (by simp)⟩

/-- C4 counterexample: the claim fails as stated.  With another creep
standing on the requester's immediately-previous cell (4,5), the movement
cost matrix assigns 255 there — the code skips only the requester's OWN
entry, it implements no previous-cell exemption — while the claimed profile
assigns terrain cost. -/
theorem movement_profile_counterexample : ¬ claimC4 := by
  intro h
  have h2 := (h ⟨5, 5, "W1"⟩ targetT 1 2000 []
      [⟨5, 5, some "me", "r1"⟩, ⟨4, 5, some "me", "o1"⟩]
      "r1" (some "me") ((4 : Int), (5 : Int)) (by simp)).2.2
    ((4 : Int), (5 : Int))
  exact absurd h2 (by decide)

/-- The creep pass of the cost callback blocks exactly the cells of creeps
other than the requester, leaving every other cell to the earlier passes. -/
theorem applyCreepCosts_spec (meName : String) (meOwner : Option String) :
    ∀ (creeps : List RoomCreep) (m : Cell → Nat) (c : Cell),
      applyCreepCosts meName meOwner creeps m c
        = if otherCreepAt creeps meName meOwner c then 255 else m c := by
  intro creeps
  induction creeps with
  | nil => intro m c; simp [applyCreepCosts, otherCreepAt]
  | cons cr rest ih =>
    intro m c
    by_cases hskip : isRequester meName meOwner cr = true
    · simp [applyCreepCosts, hskip, otherCreepAt, ih, List.any_cons]
    · by_cases hat : ((cr.x, cr.y) : Cell) = c
      · have hother : otherCreepAt (cr :: rest) meName meOwner c = true := by
          simp [otherCreepAt, List.any_cons, hskip, hat]
        simp only [applyCreepCosts, if_neg hskip]
        rw [ih, hother]
        by_cases hrest : otherCreepAt rest meName meOwner c = true
        · simp [hrest]
        · simp only [Bool.not_eq_true] at hrest
          simp [hrest, setCost, ← hat]
      · have hsplit : otherCreepAt (cr :: rest) meName meOwner c
            = otherCreepAt rest meName meOwner c := by
          simp [otherCreepAt, List.any_cons, hat]
        simp only [applyCreepCosts, if_neg hskip]
        rw [ih, hsplit]
        by_cases hrest : otherCreepAt rest meName meOwner c = true
        · simp [hrest]
        · simp only [Bool.not_eq_true] at hrest
          simp [hrest, setCost, Ne.symm hat]

/-- A structure pass never touches a cell hosting none of the listed
structures. -/
theorem applyStructCosts_not_at :
    ∀ (structures : List RoomStruct) (m : Cell → Nat) (c : Cell),
      (∀ s ∈ structures, ((s.x, s.y) : Cell) ≠ c) →
      applyStructCosts structures m c = m c := by
  intro structures
  induction structures with
  | nil => intro m c _; simp [applyStructCosts]
  | cons s rest ih =>
    intro m c h
    have hs : ((s.x, s.y) : Cell) ≠ c := h s (List.mem_cons_self _ _)
    have hr : ∀ t ∈ rest, ((t.x, t.y) : Cell) ≠ c :=
      fun t ht => h t (List.mem_cons_of_mem _ ht)
    simp only [applyStructCosts]
    rw [ih _ c hr]
    split
    · simp [setCost, Ne.symm hs]
    split
    · simp [setCost, Ne.symm hs]
    · rfl

/-- With at most one structure per cell, the structure pass of the cost
callback yields 1 on road cells, 255 on blocking-structure cells, and the
underlying value elsewhere. -/
theorem applyStructCosts_spec :
    ∀ (structures : List RoomStruct) (m : Cell → Nat) (c : Cell),
      ((structures.map (fun s => ((s.x, s.y) : Cell))).Nodup) →
      applyStructCosts structures m c
        = if roadStructAt structures c then 1
          else if blockingStructAt structures c then 255
          else m c := by
  intro structures
  induction structures with
  | nil => intro m c _; simp [applyStructCosts, roadStructAt, blockingStructAt]
  | cons s rest ih =>
    intro m c hnd
    rw [List.map_cons] at hnd
    have hnd2 := List.nodup_cons.mp hnd
    by_cases hat : ((s.x, s.y) : Cell) = c
    · have hrest : ∀ t ∈ rest, ((t.x, t.y) : Cell) ≠ c := by
        intro t ht hEq
        have hmem : ((t.x, t.y) : Cell) ∈ rest.map (fun u2 => ((u2.x, u2.y) : Cell)) :=
          List.mem_map_of_mem _ ht
        rw [hEq, ← hat] at hmem
        exact hnd2.1 hmem
      have hroadr : roadStructAt rest c = false := by
        rw [roadStructAt, List.any_eq_false]
        intro t ht
        simp [hrest t ht]
      have hblockr : blockingStructAt rest c = false := by
        rw [blockingStructAt, List.any_eq_false]
        intro t ht
        simp [hrest t ht]
      have hroadc : roadStructAt (s :: rest) c = decide (s.kind = SKind.road) := by
        rw [roadStructAt, List.any_cons, ← roadStructAt, hroadr]
        simp [hat]
      have hblockc : blockingStructAt (s :: rest) c
          = (decide (s.kind ≠ SKind.container)
            && (decide (s.kind ≠ SKind.rampart) || decide (s.my = false))) := by
        rw [blockingStructAt, List.any_cons, ← blockingStructAt, hblockr]
        simp [hat]
      simp only [applyStructCosts]
      rw [applyStructCosts_not_at rest _ c hrest, hroadc, hblockc]
      by_cases hkind : s.kind = SKind.road
      · simp [hkind, setCost, ← hat]
      · by_cases hblock : s.kind ≠ SKind.container
            ∧ (s.kind ≠ SKind.rampart ∨ s.my = false)
        · have hb : (decide (s.kind ≠ SKind.container)
              && (decide (s.kind ≠ SKind.rampart) || decide (s.my = false))) = true := by
            rcases hblock with ⟨hb1, hb2⟩
            rcases hb2 with hb2 | hb2 <;> simp [hb1, hb2]
          simp [hkind, hblock, hb, setCost, ← hat]
        · have hb : (decide (s.kind ≠ SKind.container)
              && (decide (s.kind ≠ SKind.rampart) || decide (s.my = false))) = false := by
            rcases not_and_or.mp hblock with hb | hb
            · simp only [not_not] at hb
              simp [hb]
            · rcases not_or.mp hb with ⟨hb1, hb2⟩
              simp only [not_not] at hb1
              simp [hb1, hb2]
          simp [hkind, hblock, hb]
    · have hsplit1 : roadStructAt (s :: rest) c = roadStructAt rest c := by
        simp [roadStructAt, List.any_cons, hat]
      have hsplit2 : blockingStructAt (s :: rest) c = blockingStructAt rest c := by
        simp [blockingStructAt, List.any_cons, hat]
      have hm1 : (if s.kind = SKind.road then setCost m s.x s.y 1
          else if s.kind ≠ SKind.container ∧ (s.kind ≠ SKind.rampart ∨ s.my = false) then
            setCost m s.x s.y 255
          else m) c = m c := by
        split
        · simp [setCost, Ne.symm hat]
        split
        · simp [setCost, Ne.symm hat]
        · rfl
      simp only [applyStructCosts]
      rw [ih _ c hnd2.2, hsplit1, hsplit2, hm1]

/-- C4 amended: the movement profile passes open=2 and slow=10 to the
solver, and its cost matrix assigns 255 to every OTHER creep's current
cell (the only exemption is the requesting creep's own entry — there is no
previous-cell exemption), else 1 on road cells, else 255 on
blocking-structure cells, else the terrain cost (matrix 0), assuming at
most one structure per cell. -/
theorem moveQuery_profile_spec (origin target : Pos) (range maxOps : Nat)
    (structures : List RoomStruct) (creeps : List RoomCreep)
    (meName : String) (meOwner : Option String)
    (hnd : ((structures.map (fun s => ((s.x, s.y) : Cell))).Nodup)) :
    (moveQuery origin target range maxOps structures creeps meName meOwner).plainCost = 2
      ∧ (moveQuery origin target range maxOps structures creeps meName meOwner).swampCost
          = 10
      ∧ ∀ c, (moveQuery origin target range maxOps structures creeps meName meOwner).costs c
          = if otherCreepAt creeps meName meOwner c then 255
            else if roadStructAt structures c then 1
            else if blockingStructAt structures c then 255
            else 0 := by
  refine ⟨rfl, rfl, ?_⟩
  intro c
  show buildMoveCosts structures creeps meName meOwner c = _
  rw [buildMoveCosts, applyCreepCosts_spec meName meOwner creeps _ c,
    applyStructCosts_spec structures _ c hnd]

/-- C4 witness: the amended profile theorem applied to a room with one road
structure and two creeps (the requester and one other). -/
theorem moveQuery_profile_spec_witness :
    (([⟨7, 7, SKind.road, false⟩] : List RoomStruct).map
        (fun s => ((s.x, s.y) : Cell))).Nodup
      ∧ ((moveQuery ⟨5, 5, "W1"⟩ targetT 1 2000 [⟨7, 7, SKind.road, false⟩]
            [⟨5, 5, some "me", "r1"⟩, ⟨4, 5, some "me", "o1"⟩] "r1"
            (some "me")).plainCost = 2
        ∧ (moveQuery ⟨5, 5, "W1"⟩ targetT 1 2000 [⟨7, 7, SKind.road, false⟩]
            [⟨5, 5, some "me", "r1"⟩, ⟨4, 5, some "me", "o1"⟩] "r1"
            (some "me")).swampCost = 10
        ∧ ∀ c, (moveQuery ⟨5, 5, "W1"⟩ targetT 1 2000 [⟨7, 7, SKind.road, false⟩]
            [⟨5, 5, some "me", "r1"⟩, ⟨4, 5, some "me", "o1"⟩] "r1"
            (some "me")).costs c
            = if otherCreepAt [⟨5, 5, some "me", "r1"⟩, ⟨4, 5, some "me", "o1"⟩] "r1"
                (some "me") c then 255
              else if roadStructAt [⟨7, 7, SKind.road, false⟩] c then 1
              else if blockingStructAt [⟨7, 7, SKind.road, false⟩] c then 255
              else 0) :=
  ⟨by simp,
    moveQuery_profile_spec ⟨5, 5, "W1"⟩ targetT 1 2000 [⟨7, 7, SKind.road, false⟩]
      [⟨5, 5, some "me", "r1"⟩, ⟨4, 5, some "me", "o1"⟩] "r1" (some "me") (by simp)⟩

end Colony
